import Mathlib

/-!
Shallow embedding of the OMI transaction handler
(`sawtooth_omi/handler.py`): address derivation, record codec,
authorization and validation checks, and the `apply` state transition,
together with theorems checking the specification's claims about them.

Machine integers are modelled as `Nat` with explicit `% 2 ^ 64` where
64-bit overflow matters.  All definitions are executable.
-/

namespace OMI

/-- `2 ^ 64`, the modulus for 64-bit words in SHA-512. -/
def p64 : Nat := 2 ^ 64

/-- Bitwise XOR computed digit by digit with explicit fuel (one step per
bit), so that it is structurally recursive and kernel-evaluable. -/
def xorAux : Nat → Nat → Nat → Nat
  | 0, _, _ => 0
  | k + 1, a, b => (a % 2 + b % 2) % 2 + 2 * xorAux k (a / 2) (b / 2)

/-- Bitwise XOR on 64-bit words. -/
def xor64 (a b : Nat) : Nat := xorAux 64 a b

/-- Bitwise AND computed digit by digit with explicit fuel. -/
def andAux : Nat → Nat → Nat → Nat
  | 0, _, _ => 0
  | k + 1, a, b => a % 2 * (b % 2) + 2 * andAux k (a / 2) (b / 2)

/-- Bitwise AND on 64-bit words. -/
def and64 (a b : Nat) : Nat := andAux 64 a b

/-- Bitwise complement of a 64-bit word (valid for inputs `< 2 ^ 64`). -/
def not64 (x : Nat) : Nat := (p64 - 1) - x

/-- Right rotation of a 64-bit word by `r` bits, written arithmetically. -/
def rotr (r x : Nat) : Nat := x / 2 ^ r + x % 2 ^ r * 2 ^ (64 - r)

/-- Logical right shift of a 64-bit word by `r` bits. -/
def shr (r x : Nat) : Nat := x / 2 ^ r

/-- SHA-512 Σ₀. -/
def bigSigma0 (a : Nat) : Nat := xor64 (xor64 (rotr 28 a) (rotr 34 a)) (rotr 39 a)

/-- SHA-512 Σ₁. -/
def bigSigma1 (e : Nat) : Nat := xor64 (xor64 (rotr 14 e) (rotr 18 e)) (rotr 41 e)

/-- SHA-512 σ₀. -/
def smallSigma0 (x : Nat) : Nat := xor64 (xor64 (rotr 1 x) (rotr 8 x)) (shr 7 x)

/-- SHA-512 σ₁. -/
def smallSigma1 (x : Nat) : Nat := xor64 (xor64 (rotr 19 x) (rotr 61 x)) (shr 6 x)

/-- SHA-512 choice function. -/
def ch (e f g : Nat) : Nat := xor64 (and64 e f) (and64 (not64 e) g)

/-- SHA-512 majority function. -/
def maj (a b c : Nat) : Nat := xor64 (xor64 (and64 a b) (and64 a c)) (and64 b c)

/-- Bisection step for the integer cube root, with explicit fuel.
Invariant: `lo ^ 3 ≤ n < hi ^ 3`. -/
def icbrtAux : Nat → Nat → Nat → Nat → Nat
  | 0, lo, _, _ => lo
  | fuel + 1, lo, hi, n =>
    if hi ≤ lo + 1 then lo
    else
      let m := (lo + hi) / 2
      if m ^ 3 ≤ n then icbrtAux fuel m hi n else icbrtAux fuel lo m n

/-- Integer cube root (floor), by bisection. -/
def icbrt (n : Nat) : Nat := icbrtAux 256 0 (n + 1) n

/-- First 64 bits of the fractional part of the cube root of `p`
(the SHA-512 round constants are these, for the first 80 primes). -/
def fracCbrtBits (p : Nat) : Nat := icbrt (p * 2 ^ 192) % p64

/-- First 64 bits of the fractional part of the square root of `p`
(the SHA-512 initial hash words are these, for the first 8 primes). -/
def fracSqrtBits (p : Nat) : Nat := Nat.sqrt (p * 2 ^ 128) % p64

/-- The first 80 prime numbers. -/
def primes80 : List Nat :=
  [2, 3, 5, 7, 11, 13, 17, 19, 23, 29, 31, 37, 41, 43, 47, 53, 59, 61, 67, 71,
   73, 79, 83, 89, 97, 101, 103, 107, 109, 113, 127, 131, 137, 139, 149, 151,
   157, 163, 167, 173, 179, 181, 191, 193, 197, 199, 211, 223, 227, 229, 233,
   239, 241, 251, 257, 263, 269, 271, 277, 281, 283, 293, 307, 311, 313, 317,
   331, 337, 347, 349, 353, 359, 367, 373, 379, 383, 389, 397, 401, 409]

/-- The 80 SHA-512 round constants. -/
def roundConstants : List Nat := primes80.map fracCbrtBits

/-- The eight 64-bit working variables of SHA-512. -/
structure Sha512State where
  a : Nat
  b : Nat
  c : Nat
  d : Nat
  e : Nat
  f : Nat
  g : Nat
  h : Nat

/-- The SHA-512 initial hash value. -/
def initHash : Sha512State :=
  ⟨fracSqrtBits 2, fracSqrtBits 3, fracSqrtBits 5, fracSqrtBits 7,
   fracSqrtBits 11, fracSqrtBits 13, fracSqrtBits 17, fracSqrtBits 19⟩

/-- UTF-8 encoding of a single character, as a list of byte values
(mirrors Python's `str.encode('utf-8')` per character). -/
def utf8EncodeCharBytes (c : Char) : List Nat :=
  let v := c.toNat
  if v < 0x80 then [v]
  else if v < 0x800 then [0xC0 + v / 64, 0x80 + v % 64]
  else if v < 0x10000 then [0xE0 + v / 4096, 0x80 + v / 64 % 64, 0x80 + v % 64]
  else [0xF0 + v / 262144, 0x80 + v / 4096 % 64, 0x80 + v / 64 % 64, 0x80 + v % 64]

/-- UTF-8 bytes of a string (mirrors `name.encode('utf-8')`). -/
def strBytes (s : String) : List Nat := s.data.flatMap utf8EncodeCharBytes

/-- Big-endian byte representation of `x` in exactly `k` bytes. -/
def toBytesBE : Nat → Nat → List Nat
  | 0, _ => []
  | k + 1, x => toBytesBE k (x / 256) ++ [x % 256]

/-- SHA-512 message padding: append `0x80`, zeros, and the 128-bit
big-endian bit length, reaching a multiple of 128 bytes. -/
def padMessage (msg : List Nat) : List Nat :=
  let zeros := (128 - (msg.length + 17) % 128) % 128
  msg ++ 0x80 :: (List.replicate zeros 0 ++ toBytesBE 16 (8 * msg.length))

/-- Big-endian interpretation of a byte list as one machine word. -/
def bytesToWord (bs : List Nat) : Nat := bs.foldl (fun acc b => 256 * acc + b) 0

/-- Split a list into `k` chunks of `size` elements each. -/
def takeChunks : Nat → Nat → List Nat → List (List Nat)
  | 0, _, _ => []
  | k + 1, size, l => l.take size :: takeChunks k size (l.drop size)

/-- The sixteen 64-bit words of one 128-byte block. -/
def blockWords (block : List Nat) : List Nat := (takeChunks 16 8 block).map bytesToWord

/-- Split a padded message into its 128-byte blocks. -/
def toBlocks (msg : List Nat) : List (List Nat) := takeChunks (msg.length / 128) 128 msg

/-- One message-schedule extension step: append
`σ₁(w[t-2]) + w[t-7] + σ₀(w[t-15]) + w[t-16] mod 2 ^ 64`. -/
def scheduleStep (w : List Nat) : List Nat :=
  let n := w.length
  let g := fun i => w.getD (n - i) 0
  w ++ [(smallSigma1 (g 2) + g 7 + smallSigma0 (g 15) + g 16) % p64]

/-- Iterate the message-schedule step. -/
def scheduleRounds : Nat → List Nat → List Nat
  | 0, w => w
  | k + 1, w => scheduleRounds k (scheduleStep w)

/-- The 80-word SHA-512 message schedule of a block. -/
def messageSchedule (w16 : List Nat) : List Nat := scheduleRounds 64 w16

/-- One SHA-512 compression round; `kw` is the pair of round constant
and schedule word. -/
def sha512Round (st : Sha512State) (kw : Nat × Nat) : Sha512State :=
  let t1 := (st.h + bigSigma1 st.e + ch st.e st.f st.g + kw.1 + kw.2) % p64
  let t2 := (bigSigma0 st.a + maj st.a st.b st.c) % p64
  ⟨(t1 + t2) % p64, st.a, st.b, st.c, (st.d + t1) % p64, st.e, st.f, st.g⟩

/-- SHA-512 compression of one 128-byte block. -/
def compress (st : Sha512State) (block : List Nat) : Sha512State :=
  let t := (roundConstants.zip (messageSchedule (blockWords block))).foldl sha512Round st
  ⟨(st.a + t.a) % p64, (st.b + t.b) % p64, (st.c + t.c) % p64, (st.d + t.d) % p64,
   (st.e + t.e) % p64, (st.f + t.f) % p64, (st.g + t.g) % p64, (st.h + t.h) % p64⟩

/-- SHA-512 of a byte list. -/
def sha512Bytes (msg : List Nat) : Sha512State :=
  (toBlocks (padMessage msg)).foldl compress initHash

/-- Lowercase hexadecimal digit character of a value `< 16`
(digits then `'a'`-`'f'`, as in Python's `.hexdigest()`). -/
def hexChar (n : Nat) : Char := Nat.digitChar n

/-- The 16 hex characters of a 64-bit word, most significant first. -/
def wordHex (w : Nat) : List Char :=
  (List.range 16).map fun i => hexChar (w / 16 ^ (15 - i) % 16)

/-- The 128-hex-character digest string of a SHA-512 state
(mirrors `.hexdigest()`). -/
def digestHex (st : Sha512State) : String :=
  ⟨wordHex st.a ++ wordHex st.b ++ wordHex st.c ++ wordHex st.d ++
   wordHex st.e ++ wordHex st.f ++ wordHex st.g ++ wordHex st.h⟩

/-- `_hash_name(name)`: `hashlib.sha512(name.encode('utf-8')).hexdigest()`. -/
def hashName (name : String) : String := digestHex (sha512Bytes (strBytes name))


/-- `FAMILY_NAME = 'OMI'`. -/
def FAMILY_NAME : String := "OMI"

/-- `OMI_ADDRESS_PREFIX = _hash_name(FAMILY_NAME)[:6]` (renamed: the first
six hex characters of the hash of the family name). -/
def omiPrefix6 : String := ⟨(hashName FAMILY_NAME).data.take 6⟩

/-- The four action tags: `'SetWork'`, `'SetRecording'`,
`'SetIndividualIdentity'`, `'SetOrganizationalIdentity'`.  The handler
compares the payload's action string against exactly these four constants;
any other string is a programmer error (a `KeyError` in the lookup
tables), so the embedding takes the four known tags as an enumeration. -/
inductive Action where
  | SetWork
  | SetRecording
  | SetIndividualIdentity
  | SetOrganizationalIdentity
deriving DecidableEq, Repr

/-- Modelled from the spec: the `Work` protobuf message shape
(`work_pb2`, generated protobuf code not present under `src/`) —
"keyed by `title`; has `pubkey` (current controlling signer) and optional
songwriter/publisher references and split percentages". -/
structure WorkData where
  title : String
  pubkey : String
  split_percentages : List Nat
  songwriter_refs : List String
  publisher_refs : List String
deriving DecidableEq, Repr

/-- Modelled from the spec: the `Recording` protobuf message shape
(`recording_pb2`, not present under `src/`) — "same shape as Work". -/
structure RecordingData where
  title : String
  pubkey : String
  split_percentages : List Nat
  songwriter_refs : List String
  publisher_refs : List String
deriving DecidableEq, Repr

/-- Modelled from the spec: the `IndividualIdentity` and
`OrganizationalIdentity` protobuf message shapes (`identity_pb2`, not
present under `src/`) — "keyed by `name`; has `registering_pubkey`". -/
structure IdentityData where
  name : String
  registering_pubkey : String
deriving DecidableEq, Repr

/-- A parsed OMI record: one of the four protobuf message variants. -/
inductive OMIObject where
  | work : WorkData → OMIObject
  | recording : RecordingData → OMIObject
  | individual : IdentityData → OMIObject
  | organizational : IdentityData → OMIObject
deriving DecidableEq, Repr

/-- Modelled from the spec: serialized protobuf bytes.  The codec
(`SerializeToString` / `ParseFromString` of the generated protobuf
classes, not present under `src/`) is modelled per spec §4.2 as a
canonical, injective wire form per variant: `enc*` constructors are the
encodings of records, and `invalid` stands for byte strings that do not
parse as the required variant (protobuf raises `DecodeError` on them). -/
inductive Bytes where
  | encWork : WorkData → Bytes
  | encRecording : RecordingData → Bytes
  | encIndividual : IdentityData → Bytes
  | encOrganizational : IdentityData → Bytes
  | invalid : Nat → Bytes
deriving DecidableEq, Repr

/-- Errors raised by the handler: `InvalidTransaction` and
`InternalError`, each carrying its message. -/
inductive OMIError where
  | invalidTransaction : String → OMIError
  | internalError : String → OMIError
deriving DecidableEq, Repr

/-- `obj.SerializeToString()`: the canonical wire form of a record
(modelled from the spec's record codec, §4.2). -/
def serialize : OMIObject → Bytes
  | .work w => .encWork w
  | .recording r => .encRecording r
  | .individual i => .encIndividual i
  | .organizational o => .encOrganizational o

/-- `_parse_object(obj_string, action)`: select the variant type by
`action` and deserialize; a protobuf `DecodeError` becomes
`InvalidTransaction('Invalid action')`. -/
def parseObject (bs : Bytes) (action : Action) : Except OMIError OMIObject :=
  match action, bs with
  | .SetWork, .encWork w => .ok (.work w)
  | .SetRecording, .encRecording r => .ok (.recording r)
  | .SetIndividualIdentity, .encIndividual i => .ok (.individual i)
  | .SetOrganizationalIdentity, .encOrganizational o => .ok (.organizational o)
  | _, _ => .error (.invalidTransaction "Invalid action")

/-- `_get_address_infix(action)`: the 2-character constant of each
action (renamed from the Python). -/
def addressInfixOf (action : Action) : String :=
  match action with
  | .SetWork => "a0"
  | .SetRecording => "a1"
  | .SetIndividualIdentity => "00"
  | .SetOrganizationalIdentity => "01"

/-- Whether a parsed record is of the variant selected by an action.
In `apply` this always holds, because `_parse_object` chooses the
variant type from the same action. -/
def variantMatches (obj : OMIObject) (action : Action) : Bool :=
  match action, obj with
  | .SetWork, .work _ => true
  | .SetRecording, .recording _ => true
  | .SetIndividualIdentity, .individual _ => true
  | .SetOrganizationalIdentity, .organizational _ => true
  | _, _ => false

/-- `_get_unique_key(obj, action)`: `obj.title` for Work/Recording,
`obj.name` for the identities.  The catch-all is unreachable from
`apply`, where the object variant always matches the action (in Python a
mismatch would be an `AttributeError`). -/
def getUniqueKey (obj : OMIObject) (action : Action) : String :=
  match action, obj with
  | .SetWork, .work w => w.title
  | .SetRecording, .recording r => r.title
  | .SetIndividualIdentity, .individual i => i.name
  | .SetOrganizationalIdentity, .organizational o => o.name
  | _, _ => ""

/-- Python's `s[-62:]`: the last `n` characters of a string (the whole
string when it is shorter than `n`). -/
def lastChars (n : Nat) (s : String) : String := ⟨s.data.drop (s.data.length - n)⟩

/-- `make_omi_address(obj, action)`:
`OMI_ADDRESS_PREFIX + infix + _hash_name(key)[-62:]`. -/
def makeOmiAddress (obj : OMIObject) (action : Action) : String :=
  omiPrefix6 ++ addressInfixOf action ++ lastChars 62 (hashName (getUniqueKey obj action))

/-- The owner field of a stored record as the spec describes it:
`pubkey` for Work/Recording, `registering_pubkey` for the identities. -/
def ownerOf : OMIObject → String
  | .work w => w.pubkey
  | .recording r => r.pubkey
  | .individual i => i.registering_pubkey
  | .organizational o => o.registering_pubkey

/-- The owner lookup of `_check_authorization`, dispatching on the
action as the Python does (`state_obj.pubkey` for Work/Recording,
`state_obj.registering_pubkey` for the identities).  The catch-all is
unreachable from `apply` (Python: `AttributeError`). -/
def getOwner (stateObj : OMIObject) (action : Action) : String :=
  match action, stateObj with
  | .SetWork, .work w => w.pubkey
  | .SetRecording, .recording r => r.pubkey
  | .SetIndividualIdentity, .individual i => i.registering_pubkey
  | .SetOrganizationalIdentity, .organizational o => o.registering_pubkey
  | _, _ => ""

/-- `_check_authorization(state_obj, action, signer)`: pass when there is
no stored record; otherwise require the stored owner key to equal the
signer, else `InvalidTransaction('Signing key mismatch')`. -/
def checkAuthorization (stateObj : Option OMIObject) (action : Action)
    (signer : String) : Except OMIError Unit :=
  match stateObj with
  | none => .ok ()
  | some obj =>
    if getOwner obj action ≠ signer then
      .error (.invalidTransaction "Signing key mismatch")
    else
      .ok ()

/-- `_check_split_sums(obj, action)`: the source's body is empty (it
holds only the docstring "Raise InvalidTransaction if there are nonempty
splits that don't add up to 100"), so the function always returns
successfully. -/
def checkSplitSums (_obj : OMIObject) (_action : Action) : Except OMIError Unit :=
  .ok ()

/-- `_check_references(obj, action)`: the source's body is empty (it
holds only the docstring "Raise InvalidTransaction if the object
references anything that isn't in state"), so the function always
returns successfully. -/
def checkReferences (_obj : OMIObject) (_action : Action) : Except OMIError Unit :=
  .ok ()

/-- Modelled from the spec: the state-access capability (§6).  `data` is
the flat address → value map visible to `get`; `setOk` says whether the
store acknowledges writes (`set` returns the written addresses on
success and an empty list on store-level failure). -/
structure TPState where
  data : String → Option Bytes
  setOk : Bool

/-- Modelled from the spec: `state.set(entries)` — on acknowledgment,
returns the written addresses and the updated map; on store-level
failure, returns the empty list and leaves the store unchanged. -/
def stateSet (s : TPState) (entries : List (String × Bytes)) : List String × TPState :=
  if s.setOk then
    (entries.map Prod.fst,
     { s with data := fun a =>
         match entries.find? (fun e => e.1 = a) with
         | some e => some e.2
         | none => s.data a })
  else
    ([], s)

/-- Modelled from the spec: the transaction envelope, pre-decoded.  The
handler reads `header.signer_pubkey`, `payload.action` and
`transaction.data`; decoding of header and payload themselves is a
host-runtime contract (§4.5 step 1), so the envelope is carried here in
decoded form, with the user-supplied record bytes kept raw. -/
structure Transaction where
  signer : String
  action : Action
  data : Bytes

/-- `_unpack_transaction(transaction)`: return `(action, obj, signer)`,
parsing the raw record bytes with `_parse_object`. -/
def unpackTransaction (txn : Transaction) : Except OMIError (Action × OMIObject × String) :=
  match parseObject txn.data txn.action with
  | .ok obj => .ok (txn.action, obj, txn.signer)
  | .error e => .error e

/-- `_get_state_object(state, address, action)`: read the value at the
address (`IndexError` on an absent entry gives `None`); a present value
is parsed with `_parse_object`, whose `InvalidTransaction` propagates
(the `except` clause catches only `IndexError`). -/
def getStateObject (s : TPState) (address : String) (action : Action) :
    Except OMIError (Option OMIObject) :=
  match s.data address with
  | none => .ok none
  | some bs =>
    match parseObject bs action with
    | .ok obj => .ok (some obj)
    | .error e => .error e

/-- `_set_state_object(state, address, obj)`: serialize and write; if the
store returns no written addresses, raise `InternalError('State error')`. -/
def setStateObject (s : TPState) (address : String) (obj : OMIObject) :
    Except OMIError Unit × TPState :=
  let res := stateSet s [(address, serialize obj)]
  if res.1.isEmpty then (.error (.internalError "State error"), res.2)
  else (.ok (), res.2)

/-- `OMITransactionHandler.apply(transaction, state)`: unpack, derive the
address, load prior state, check authorization, split sums and
references, then commit.  State is threaded explicitly; every failing
step returns the store unchanged, mirroring that the Python raises
before any `state.set` call. -/
def applyTxn (txn : Transaction) (state : TPState) : Except OMIError Unit × TPState :=
  match unpackTransaction txn with
  | .error e => (.error e, state)
  | .ok (action, txnObj, signer) =>
    let address := makeOmiAddress txnObj action
    match getStateObject state address action with
    | .error e => (.error e, state)
    | .ok stateObj =>
      match checkAuthorization stateObj action signer with
      | .error e => (.error e, state)
      | .ok () =>
        match checkSplitSums txnObj action with
        | .error e => (.error e, state)
        | .ok () =>
          match checkReferences txnObj action with
          | .error e => (.error e, state)
          | .ok () => setStateObject state address txnObj

/-- The first `n` characters of a string (Python's `s[:n]`). -/
def firstChars (n : Nat) (s : String) : String := ⟨s.data.take n⟩

/-- The natural key of a record as the spec describes it: `title` for
Work/Recording, `name` for the identities. -/
def naturalKey : OMIObject → String
  | .work w => w.title
  | .recording r => r.title
  | .individual i => i.name
  | .organizational o => o.name

end OMI

namespace OMI

/-! ### Helper lemmas -/

lemma data_append (s t : String) : (s ++ t).data = s.data ++ t.data := rfl

lemma length_mk (l : List Char) : (⟨l⟩ : String).length = l.length := rfl

lemma wordHex_length (w : Nat) : (wordHex w).length = 16 := by
  simp [wordHex]

lemma hashName_length (s : String) : (hashName s).length = 128 := by
  simp [hashName, digestHex, length_mk, wordHex_length]

lemma hashName_data_length (s : String) : (hashName s).data.length = 128 :=
  hashName_length s

lemma omiPrefix6_length : omiPrefix6.length = 6 := by
  have h := hashName_length FAMILY_NAME
  simp [omiPrefix6, length_mk, hashName_data_length]
  omega

lemma lastChars_hash_length (s : String) : (lastChars 62 (hashName s)).length = 62 := by
  have h := hashName_length s
  simp [lastChars, length_mk, hashName_data_length]
  omega

lemma addressInfixOf_length (action : Action) : (addressInfixOf action).length = 2 := by
  cases action <;> rfl

lemma getUniqueKey_eq_naturalKey (obj : OMIObject) (action : Action)
    (h : variantMatches obj action = true) : getUniqueKey obj action = naturalKey obj := by
  cases action <;> cases obj <;> simp_all [variantMatches, getUniqueKey, naturalKey]

lemma parseObject_variantMatches (bs : Bytes) (action : Action) (obj : OMIObject)
    (h : parseObject bs action = .ok obj) : variantMatches obj action = true := by
  cases action <;> cases bs <;> simp_all [parseObject] <;> subst h <;> rfl

lemma getOwner_eq_ownerOf (obj : OMIObject) (action : Action)
    (h : variantMatches obj action = true) : getOwner obj action = ownerOf obj := by
  cases action <;> cases obj <;> simp_all [variantMatches, getOwner, ownerOf]

lemma stateSet_lookup (s : TPState) (addr : String) (v : Bytes) (h : s.setOk = true) :
    ((stateSet s [(addr, v)]).2).data addr = some v := by
  simp [stateSet, h, List.find?]

lemma setStateObject_snd (s : TPState) (addr : String) (obj : OMIObject) :
    (setStateObject s addr obj).2 = (stateSet s [(addr, serialize obj)]).2 := by
  cases hOk : s.setOk <;> simp [setStateObject, stateSet, hOk]

lemma setStateObject_fst_ok (s : TPState) (addr : String) (obj : OMIObject)
    (h : s.setOk = true) : (setStateObject s addr obj).1 = .ok () := by
  simp [setStateObject, stateSet, h]

/-! ### Claim theorems -/

/-- C5: for every known action tag and matching record, the derived
address is the 6-character namespace prefix (first 6 hex characters of
the 512-bit hash of the family name), then the 2-character infix of the
action (`SetWork → "a0"`, `SetRecording → "a1"`,
`SetIndividualIdentity → "00"`, `SetOrganizationalIdentity → "01"`),
then the last 62 hex characters of the 512-bit hash of the record's
natural key (title for Work/Recording, name for identities); the total
length is always 70 characters. -/
theorem make_omi_address_correct (obj : OMIObject) (action : Action)
    (h : variantMatches obj action = true) :
    makeOmiAddress obj action =
      firstChars 6 (hashName FAMILY_NAME) ++ addressInfixOf action ++
        lastChars 62 (hashName (naturalKey obj)) ∧
    (makeOmiAddress obj action).length = 70 ∧
    addressInfixOf .SetWork = "a0" ∧ addressInfixOf .SetRecording = "a1" ∧
    addressInfixOf .SetIndividualIdentity = "00" ∧
    addressInfixOf .SetOrganizationalIdentity = "01" := by
  refine ⟨?_, ?_, rfl, rfl, rfl, rfl⟩
  · rw [makeOmiAddress, getUniqueKey_eq_naturalKey obj action h]
    rfl
  · rw [makeOmiAddress, String.length_append, String.length_append,
      omiPrefix6_length, addressInfixOf_length, lastChars_hash_length]

/-- Witness for C5 at a concrete Work record. -/
theorem make_omi_address_correct_witness :
    variantMatches (.work ⟨"t", "K", [], [], []⟩) .SetWork = true ∧
    (makeOmiAddress (.work ⟨"t", "K", [], [], []⟩) .SetWork =
      firstChars 6 (hashName FAMILY_NAME) ++ addressInfixOf .SetWork ++
        lastChars 62 (hashName (naturalKey (.work ⟨"t", "K", [], [], []⟩))) ∧
    (makeOmiAddress (.work ⟨"t", "K", [], [], []⟩) .SetWork).length = 70 ∧
    addressInfixOf .SetWork = "a0" ∧ addressInfixOf .SetRecording = "a1" ∧
    addressInfixOf .SetIndividualIdentity = "00" ∧
    addressInfixOf .SetOrganizationalIdentity = "01") :=
  ⟨rfl, make_omi_address_correct (.work ⟨"t", "K", [], [], []⟩) .SetWork rfl⟩

/-- C9: for the same natural-key string, the `SetWork` and
`SetRecording` addresses share the final 62-character hash suffix but
differ in the infix, so they never collide. -/
theorem work_recording_addresses_distinct (w : WorkData) (r : RecordingData)
    (h : w.title = r.title) :
    makeOmiAddress (.work w) .SetWork =
      omiPrefix6 ++ "a0" ++ lastChars 62 (hashName w.title) ∧
    makeOmiAddress (.recording r) .SetRecording =
      omiPrefix6 ++ "a1" ++ lastChars 62 (hashName w.title) ∧
    makeOmiAddress (.work w) .SetWork ≠ makeOmiAddress (.recording r) .SetRecording := by
  refine ⟨rfl, by rw [h]; rfl, ?_⟩
  intro hcontra
  have hdata := congrArg String.data hcontra
  rw [show makeOmiAddress (.work w) .SetWork =
        omiPrefix6 ++ "a0" ++ lastChars 62 (hashName w.title) from rfl,
      show makeOmiAddress (.recording r) .SetRecording =
        omiPrefix6 ++ "a1" ++ lastChars 62 (hashName w.title) by rw [h]; rfl] at hdata
  rw [data_append, data_append, data_append, data_append] at hdata
  have h2 := List.append_cancel_right hdata
  have h3 := List.append_cancel_left h2
  simp at h3

/-- Witness for C9 at a concrete shared title. -/
theorem work_recording_addresses_distinct_witness :
    makeOmiAddress (.work ⟨"t", "K1", [], [], []⟩) .SetWork ≠
      makeOmiAddress (.recording ⟨"t", "K2", [], [], []⟩) .SetRecording :=
  (work_recording_addresses_distinct ⟨"t", "K1", [], [], []⟩ ⟨"t", "K2", [], [], []⟩ rfl).2.2


lemma setStateObject_error_state (s : TPState) (addr : String) (obj : OMIObject)
    (e : OMIError) (h : (setStateObject s addr obj).1 = .error e) :
    (setStateObject s addr obj).2 = s := by
  cases hOk : s.setOk
  · simp [setStateObject, stateSet, hOk]
  · rw [setStateObject_fst_ok s addr obj hOk] at h
    simp at h

/-- C3: with no prior record the authorization check passes
unconditionally; with a prior record it passes exactly when the stored
owner field (`pubkey` for Work/Recording, `registering_pubkey` for the
identities) equals the signer, and on a mismatch `apply` fails with
`InvalidTransaction('Signing key mismatch')`, leaving the store
unchanged. -/
theorem check_authorization_correct (action : Action) (signer : String) :
    checkAuthorization none action signer = .ok () ∧
    (∀ obj : OMIObject, variantMatches obj action = true →
      ((checkAuthorization (some obj) action signer = .ok ()) ↔ ownerOf obj = signer)) ∧
    (∀ (txn : Transaction) (s : TPState) (bs : Bytes) (txnObj prior : OMIObject),
      txn.action = action → txn.signer = signer →
      parseObject txn.data action = .ok txnObj →
      s.data (makeOmiAddress txnObj action) = some bs →
      parseObject bs action = .ok prior →
      ownerOf prior ≠ signer →
      applyTxn txn s = (.error (.invalidTransaction "Signing key mismatch"), s)) := by
  refine ⟨rfl, ?_, ?_⟩
  · intro obj hm
    simp only [checkAuthorization, getOwner_eq_ownerOf obj action hm]
    by_cases h : ownerOf obj = signer <;> simp [h]
  · intro txn s bs txnObj prior ha hs hp hd hb hown
    subst ha; subst hs
    have hm := parseObject_variantMatches bs txn.action prior hb
    simp [applyTxn, unpackTransaction, hp, getStateObject, hd, hb, checkAuthorization,
      getOwner_eq_ownerOf prior txn.action hm, hown]

/-- Witness for C3: a stored Work owned by `K1` rejects a `SetWork`
signed by `K2`. -/
theorem check_authorization_correct_witness :
    applyTxn ⟨"K2", .SetWork, .encWork ⟨"t", "K2", [], [], []⟩⟩
        ⟨fun _ => some (.encWork ⟨"t", "K1", [], [], []⟩), true⟩ =
      (.error (.invalidTransaction "Signing key mismatch"),
       ⟨fun _ => some (.encWork ⟨"t", "K1", [], [], []⟩), true⟩) :=
  (check_authorization_correct .SetWork "K2").2.2 _ _ (.encWork ⟨"t", "K1", [], [], []⟩)
    (.work ⟨"t", "K2", [], [], []⟩) (.work ⟨"t", "K1", [], [], []⟩)
    rfl rfl rfl rfl rfl (by decide)

/-- C6: whenever `apply` fails (record decode, stored-record decode,
authorization, split-sum check, reference check, or unacknowledged
write), the resulting store equals the prior store: the only write
happens after all checks pass. -/
theorem apply_failure_preserves_state (txn : Transaction) (s : TPState) (e : OMIError)
    (h : (applyTxn txn s).1 = .error e) : (applyTxn txn s).2 = s := by
  unfold applyTxn at h ⊢
  cases hu : unpackTransaction txn with
  | error e2 => simp [hu]
  | ok triple =>
    obtain ⟨action, txnObj, signer⟩ := triple
    simp only [hu] at h ⊢
    cases hg : getStateObject s (makeOmiAddress txnObj action) action with
    | error e2 => simp [hg]
    | ok stateObj =>
      simp only [hg] at h ⊢
      cases hc : checkAuthorization stateObj action signer with
      | error e2 => simp [hc]
      | ok u =>
        obtain ⟨⟩ := u
        simp only [hc, checkSplitSums, checkReferences] at h ⊢
        exact setStateObject_error_state s (makeOmiAddress txnObj action) txnObj e h

/-- Witness for C6 at a malformed incoming record. -/
theorem apply_failure_preserves_state_witness :
    (applyTxn ⟨"S", .SetWork, .invalid 0⟩ ⟨fun _ => none, true⟩).2 =
      ⟨fun _ => none, true⟩ :=
  apply_failure_preserves_state ⟨"S", .SetWork, .invalid 0⟩ ⟨fun _ => none, true⟩
    (.invalidTransaction "Invalid action") rfl

/-- C7: `apply` is deterministic — two runs on the same transaction and
prior state give the same outcome and the same resulting state. -/
theorem apply_deterministic (txn : Transaction) (s : TPState)
    (r1 r2 : Except OMIError Unit × TPState)
    (h1 : applyTxn txn s = r1) (h2 : applyTxn txn s = r2) : r1 = r2 :=
  h1.symm.trans h2

/-- Witness for C7 at a concrete transaction and state. -/
theorem apply_deterministic_witness :
    applyTxn ⟨"S", .SetWork, .encWork ⟨"t", "S", [], [], []⟩⟩ ⟨fun _ => none, true⟩ =
      applyTxn ⟨"S", .SetWork, .encWork ⟨"t", "S", [], [], []⟩⟩ ⟨fun _ => none, true⟩ :=
  apply_deterministic ⟨"S", .SetWork, .encWork ⟨"t", "S", [], [], []⟩⟩
    ⟨fun _ => none, true⟩ _ _ rfl rfl

/-- C8: if the store does not acknowledge the write, `_set_state_object`
raises `InternalError('State error')` and the store is unchanged; if it
acknowledges, the call succeeds and the value at the address is the
serialization of the new record, replacing any prior value. -/
theorem set_state_object_correct (s : TPState) (addr : String) (obj : OMIObject) :
    (s.setOk = false →
      setStateObject s addr obj = (.error (.internalError "State error"), s)) ∧
    (s.setOk = true →
      (setStateObject s addr obj).1 = .ok () ∧
      (setStateObject s addr obj).2.data addr = some (serialize obj)) := by
  constructor
  · intro h
    simp [setStateObject, stateSet, h]
  · intro h
    exact ⟨setStateObject_fst_ok s addr obj h,
      by rw [setStateObject_snd]; exact stateSet_lookup s addr (serialize obj) h⟩

/-- Witness for C8, at a non-acknowledging and an acknowledging store. -/
theorem set_state_object_correct_witness :
    setStateObject ⟨fun _ => none, false⟩ "a" (.individual ⟨"n", "k"⟩) =
      (.error (.internalError "State error"), ⟨fun _ => none, false⟩) ∧
    ((setStateObject ⟨fun _ => none, true⟩ "a" (.individual ⟨"n", "k"⟩)).1 = .ok () ∧
      (setStateObject ⟨fun _ => none, true⟩ "a" (.individual ⟨"n", "k"⟩)).2.data "a" =
        some (serialize (.individual ⟨"n", "k"⟩))) :=
  ⟨(set_state_object_correct ⟨fun _ => none, false⟩ "a" (.individual ⟨"n", "k"⟩)).1 rfl,
   (set_state_object_correct ⟨fun _ => none, true⟩ "a" (.individual ⟨"n", "k"⟩)).2 rfl⟩


/-- C1 (code bug): `_check_split_sums`'s docstring promises to raise
`InvalidTransaction` for nonempty splits that do not add up to 100, but
its body is empty, so a Work whose splits sum to 95 passes the check and
the whole `apply` pipeline commits it. -/
theorem split_sums_not_enforced :
    (([40, 35, 20] : List Nat).sum ≠ 100) ∧
    checkSplitSums (.work ⟨"t", "K", [40, 35, 20], [], []⟩) .SetWork = .ok () ∧
    (applyTxn ⟨"K", .SetWork, .encWork ⟨"t", "K", [40, 35, 20], [], []⟩⟩
        ⟨fun _ => none, true⟩).1 = .ok () ∧
    (applyTxn ⟨"K", .SetWork, .encWork ⟨"t", "K", [40, 35, 25], [], []⟩⟩
        ⟨fun _ => none, true⟩).1 = .ok () :=
  ⟨by decide, rfl, rfl, rfl⟩

/-- C2 (code bug): `_check_references`'s docstring promises to raise
`InvalidTransaction` when the object references anything not in state,
but its body is empty, so a Work naming the songwriter `"alice"`
succeeds against a state with no entries at all. -/
theorem references_not_enforced :
    checkReferences (.work ⟨"t", "K", [], ["alice"], []⟩) .SetWork = .ok () ∧
    (∀ a : String, ((⟨fun _ => none, true⟩ : TPState).data a) = none) ∧
    (applyTxn ⟨"K", .SetWork, .encWork ⟨"t", "K", [], ["alice"], []⟩⟩
        ⟨fun _ => none, true⟩).1 = .ok () :=
  ⟨rfl, fun _ => rfl, rfl⟩

lemma applyTxn_first_write (signer : String) (action : Action) (bs : Bytes)
    (obj : OMIObject) (s : TPState)
    (hparse : parseObject bs action = .ok obj)
    (hempty : s.data (makeOmiAddress obj action) = none) :
    applyTxn ⟨signer, action, bs⟩ s =
      setStateObject s (makeOmiAddress obj action) obj := by
  simp [applyTxn, unpackTransaction, hparse, getStateObject, hempty,
    checkAuthorization, checkSplitSums, checkReferences]

lemma applyTxn_first_write_commits (signer : String) (action : Action) (bs : Bytes)
    (obj : OMIObject) (s : TPState)
    (hparse : parseObject bs action = .ok obj)
    (hempty : s.data (makeOmiAddress obj action) = none)
    (hok : s.setOk = true) :
    (applyTxn ⟨signer, action, bs⟩ s).1 = .ok () ∧
    (applyTxn ⟨signer, action, bs⟩ s).2.data (makeOmiAddress obj action) =
      some (serialize obj) := by
  have happly := applyTxn_first_write signer action bs obj s hparse hempty
  refine ⟨?_, ?_⟩
  · rw [happly]
    exact setStateObject_fst_ok _ _ _ hok
  · rw [happly, setStateObject_snd]
    exact stateSet_lookup _ _ _ hok

/-- Counterexample to C4 as stated: a `SetIndividualIdentity` signed by
`"B"` whose record carries `registering_pubkey = "A"` succeeds at an
unoccupied address, and the committed record's `registering_pubkey` is
`"A"`, not the signer `"B"`. -/
theorem first_writer_signer_counterexample :
    ((applyTxn ⟨"B", .SetIndividualIdentity, .encIndividual ⟨"alice", "A"⟩⟩
        ⟨fun _ => none, true⟩).1 = .ok ()) ∧
    ((applyTxn ⟨"B", .SetIndividualIdentity, .encIndividual ⟨"alice", "A"⟩⟩
        ⟨fun _ => none, true⟩).2.data
          (makeOmiAddress (.individual ⟨"alice", "A"⟩) .SetIndividualIdentity) =
        some (serialize (.individual ⟨"alice", "A"⟩))) ∧
    (IdentityData.registering_pubkey ⟨"alice", "A"⟩ ≠ "B") := by
  have h := applyTxn_first_write_commits "B" .SetIndividualIdentity
    (.encIndividual ⟨"alice", "A"⟩) (.individual ⟨"alice", "A"⟩)
    ⟨fun _ => none, true⟩ rfl rfl rfl
  exact ⟨h.1, h.2, by decide⟩

/-- C4 as amended: applying a `SetIndividualIdentity` at an unoccupied
address against an acknowledging store succeeds regardless of the
signer, and the committed value is the serialization of the submitted
record itself — so the stored `registering_pubkey` equals the submitted
record's `registering_pubkey` field, not necessarily the signer. -/
theorem first_writer_stores_submitted_record (i : IdentityData) (signer : String)
    (s : TPState) (hok : s.setOk = true)
    (hempty : s.data (makeOmiAddress (.individual i) .SetIndividualIdentity) = none) :
    (applyTxn ⟨signer, .SetIndividualIdentity, .encIndividual i⟩ s).1 = .ok () ∧
    (applyTxn ⟨signer, .SetIndividualIdentity, .encIndividual i⟩ s).2.data
        (makeOmiAddress (.individual i) .SetIndividualIdentity) =
      some (serialize (.individual i)) := by
  exact applyTxn_first_write_commits signer .SetIndividualIdentity (.encIndividual i)
    (.individual i) s rfl hempty hok

/-- Witness for the amended C4 at a concrete record, signer and empty
acknowledging store. -/
theorem first_writer_stores_submitted_record_witness :
    (applyTxn ⟨"B", .SetIndividualIdentity, .encIndividual ⟨"carol", "C"⟩⟩
        ⟨fun _ => none, true⟩).1 = .ok () ∧
    (applyTxn ⟨"B", .SetIndividualIdentity, .encIndividual ⟨"carol", "C"⟩⟩
        ⟨fun _ => none, true⟩).2.data
        (makeOmiAddress (.individual ⟨"carol", "C"⟩) .SetIndividualIdentity) =
      some (serialize (.individual ⟨"carol", "C"⟩)) :=
  first_writer_stores_submitted_record ⟨"carol", "C"⟩ "B" ⟨fun _ => none, true⟩ rfl rfl

/-- C10: when the incoming record parses but the bytes stored at the
target address do not parse as the variant selected by the action, the
error is `InvalidTransaction('Invalid action')` — the same
submitter-attributed failure as a malformed incoming record, not an
`InternalError` — and the store is unchanged. -/
theorem stored_bytes_invalid_action (txn : Transaction) (s : TPState)
    (txnObj : OMIObject) (bs : Bytes) (e : OMIError)
    (hp : parseObject txn.data txn.action = .ok txnObj)
    (hd : s.data (makeOmiAddress txnObj txn.action) = some bs)
    (hb : parseObject bs txn.action = .error e) :
    e = .invalidTransaction "Invalid action" ∧
    applyTxn txn s = (.error (.invalidTransaction "Invalid action"), s) := by
  have he : e = .invalidTransaction "Invalid action" := by
    cases htxn : txn.action <;> cases bs <;> rw [htxn] at hb <;>
      simp [parseObject] at hb <;> simp [hb]
  subst he
  refine ⟨rfl, ?_⟩
  simp [applyTxn, unpackTransaction, hp, getStateObject, hd, hb]

/-- Witness for C10: a stored byte string that decodes as no variant. -/
theorem stored_bytes_invalid_action_witness :
    applyTxn ⟨"S", .SetWork, .encWork ⟨"t", "S", [], [], []⟩⟩
        ⟨fun _ => some (.invalid 0), true⟩ =
      (.error (.invalidTransaction "Invalid action"),
       ⟨fun _ => some (.invalid 0), true⟩) :=
  (stored_bytes_invalid_action ⟨"S", .SetWork, .encWork ⟨"t", "S", [], [], []⟩⟩
    ⟨fun _ => some (.invalid 0), true⟩ (.work ⟨"t", "S", [], [], []⟩) (.invalid 0)
    (.invalidTransaction "Invalid action") rfl rfl rfl).2

end OMI
